import Mathlib

/-!
Verification of the ledger-instruction HTTP service (`src/main.rs`).

The service is a single Rust file exposing seven stateless handlers:
keypair generation, message signing/verification, and construction of
unsigned instructions for mint initialization (`create_token`), token
minting (`token_mint`), value transfer (`transfer_sol`) and token
transfer (`transfer_token`).  This file shallowly embeds the handlers
and the library functions they delegate to (`bs58` encode/decode,
`solana_sdk::pubkey::Pubkey::from_str`, `Keypair::from_bytes`,
`spl_token::instruction::{initialize_mint2, mint_to, transfer}`,
`system_instruction::transfer`) and proves or refutes the spec claims
about them.

Bytes are modelled as `Nat` (with `< 256` hypotheses where relevant),
byte strings as `List Nat`, and text as `List Char`.
-/

/-! ## Base-58 codec (`bs58` crate)

`bs58::encode` emits one `'1'` per leading zero byte and then the
big-endian base-58 digits of the remaining bytes read as a big-endian
number; `bs58::decode` maps every character through the alphabet table
(failing on any character outside it), interprets the digit string as a
number, and prepends one zero byte per leading `'1'`.  The big-number
loops of the crate are embedded as base-conversion via fuelled
division, which computes the same digit strings. -/

/-- The Bitcoin base-58 alphabet used by the `bs58` crate. -/
def b58Alphabet : List Char :=
  ['1', '2', '3', '4', '5', '6', '7', '8', '9',
   'A', 'B', 'C', 'D', 'E', 'F', 'G', 'H', 'J', 'K', 'L', 'M', 'N',
   'P', 'Q', 'R', 'S', 'T', 'U', 'V', 'W', 'X', 'Y', 'Z',
   'a', 'b', 'c', 'd', 'e', 'f', 'g', 'h', 'i', 'j', 'k', 'm', 'n',
   'o', 'p', 'q', 'r', 's', 't', 'u', 'v', 'w', 'x', 'y', 'z']

/-- Digit value `0‥57` to alphabet character. -/
def b58Char (d : Nat) : Char := b58Alphabet.getD d '1'

/-- Alphabet character back to its digit value; `none` for characters
outside the alphabet (the `bs58` decode table). -/
def b58Val (c : Char) : Option Nat := List.findIdx? (fun a => a = c) b58Alphabet

/-- Little-endian value of a digit string in base `b`. -/
def ofDigitsLE (b : Nat) : List Nat → Nat
  | [] => 0
  | d :: ds => d + b * ofDigitsLE b ds

/-- Fuelled little-endian digit expansion (the repeated-division loop of
the big-number conversion; `fuel ≥ n` suffices for base `≥ 2`). -/
def digitsLEAux (b : Nat) : Nat → Nat → List Nat
  | 0, _ => []
  | fuel + 1, n => if n = 0 then [] else n % b :: digitsLEAux b fuel (n / b)

/-- Little-endian base-`b` digits of `n` (no leading zeros). -/
def digitsLE (b n : Nat) : List Nat := digitsLEAux b n n

/-- Number of leading occurrences of `a` at the front of a list. -/
def countLeading {α : Type} [DecidableEq α] (a : α) : List α → Nat
  | [] => 0
  | b :: bs => if b = a then countLeading a bs + 1 else 0

/-- Big-endian bytes to number (the accumulation loop of `bs58`). -/
def bytesToNat (bs : List Nat) : Nat := ofDigitsLE 256 bs.reverse

/-- Number to minimal big-endian byte string. -/
def natToBytesBE (n : Nat) : List Nat := (digitsLE 256 n).reverse

/-- `bs58::encode(bytes).into_string()`: one `'1'` per leading zero
byte, then the big-endian base-58 digits of the value of the bytes. -/
def encodeBase58 (bs : List Nat) : List Char :=
  List.replicate (countLeading 0 bs) '1' ++ ((digitsLE 58 (bytesToNat bs)).reverse.map b58Char)

/-- Per-character table lookup of `bs58::decode`; fails on the first
character outside the alphabet. -/
def b58Vals : List Char → Option (List Nat)
  | [] => some []
  | c :: cs =>
    match b58Val c with
    | none => none
    | some d =>
      match b58Vals cs with
      | none => none
      | some ds => some (d :: ds)

/-- `bs58::decode(text).into_vec()`: map every character through the
table, read the digit string as a number, and prepend one zero byte per
leading `'1'`. -/
def decodeBase58 (s : List Char) : Option (List Nat) :=
  (b58Vals s).map fun ds =>
    List.replicate (countLeading 0 ds) 0 ++ natToBytesBE (ofDigitsLE 58 ds.reverse)

/-! ### Bridges from the executable digit functions to `Nat.digits` -/

theorem ofDigitsLE_eq (b : Nat) (ds : List Nat) : ofDigitsLE b ds = Nat.ofDigits b ds := by
  induction ds with
  | nil => simp [ofDigitsLE, Nat.ofDigits]
  | cons d ds ih => simp [ofDigitsLE, Nat.ofDigits, ih]

theorem digitsLEAux_eq (b : Nat) (hb : 1 < b) :
    ∀ fuel n, n ≤ fuel → digitsLEAux b fuel n = Nat.digits b n := by
  intro fuel
  induction fuel with
  | zero =>
    intro n hn
    interval_cases n
    simp [digitsLEAux]
  | succ fuel ih =>
    intro n hn
    by_cases h0 : n = 0
    · subst h0; simp [digitsLEAux]
    · rw [digitsLEAux, if_neg h0, Nat.digits_def' hb (Nat.pos_of_ne_zero h0),
        ih (n / b) ?_]
      have : n / b < n := Nat.div_lt_self (Nat.pos_of_ne_zero h0) hb
      omega

theorem digitsLE_eq (b n : Nat) (hb : 1 < b) : digitsLE b n = Nat.digits b n :=
  digitsLEAux_eq b hb n n le_rfl

/-! ### Round-trip lemmas -/

theorem b58Val_b58Char : ∀ d < 58, b58Val (b58Char d) = some d := by decide

theorem b58Vals_map (ds : List Nat) (h : ∀ d ∈ ds, d < 58) :
    b58Vals (ds.map b58Char) = some ds := by
  induction ds with
  | nil => rfl
  | cons d ds ih =>
    have hd : d < 58 := h d (List.mem_cons_self d ds)
    have hds : ∀ x ∈ ds, x < 58 := fun x hx => h x (List.mem_cons_of_mem d hx)
    simp [b58Vals, b58Val_b58Char d hd, ih hds]

theorem countLeading_replicate_append {α : Type} [DecidableEq α] (a : α) (k : Nat)
    (l : List α) : countLeading a (List.replicate k a ++ l) = k + countLeading a l := by
  induction k with
  | zero => simp
  | succ k ih => simp [List.replicate_succ, countLeading, ih]; omega

theorem countLeading_cons_ne {α : Type} [DecidableEq α] (a x : α) (l : List α)
    (h : x ≠ a) : countLeading a (x :: l) = 0 := by
  simp [countLeading, h]

theorem ofDigits_replicate_zero (b k : Nat) :
    Nat.ofDigits b (List.replicate k 0) = 0 := by
  induction k with
  | zero => simp [Nat.ofDigits]
  | succ k ih => simp [List.replicate_succ, Nat.ofDigits, ih]

/-- Splitting a list at its leading-`0` run. -/
theorem countLeading_decomp (bs : List Nat) :
    bs = List.replicate (countLeading 0 bs) 0 ++ bs.drop (countLeading 0 bs) := by
  induction bs with
  | nil => rfl
  | cons b bs ih =>
    by_cases hb : b = 0
    · subst hb
      simp only [countLeading, if_pos rfl, List.replicate_succ, List.cons_append,
        List.drop_succ_cons]
      exact congrArg (0 :: ·) ih
    · simp [countLeading, hb]

/-- After the leading-`0` run, the next element (if any) is nonzero. -/
theorem countLeading_drop_head (bs : List Nat) :
    ∀ h : bs.drop (countLeading 0 bs) ≠ [],
      (bs.drop (countLeading 0 bs)).head h ≠ 0 := by
  induction bs with
  | nil => intro h; simp at h
  | cons b bs ih =>
    by_cases hb : b = 0
    · subst hb
      simp only [countLeading, if_pos rfl, List.drop_succ_cons]
      exact ih
    · simp [countLeading, hb, hb]

theorem countLeading_replicate (k : Nat) : countLeading (0 : Nat) (List.replicate k 0) = k := by
  have := countLeading_replicate_append (0 : Nat) k []
  simpa using this

theorem bytesToNat_replicate_zero_append (k : Nat) (t : List Nat) :
    bytesToNat (List.replicate k 0 ++ t) = Nat.ofDigits 256 t.reverse := by
  simp only [bytesToNat, List.reverse_append, List.reverse_replicate, ofDigitsLE_eq,
    Nat.ofDigits_append, ofDigits_replicate_zero, Nat.mul_zero, Nat.add_zero]

/-- Core of the round trip: a byte string split as leading zeros plus a
remainder not starting with `0` decodes back from its encoding. -/
theorem decode_encode_core (k : Nat) (t : List Nat) (ht : ∀ b ∈ t, b < 256)
    (hhead : ∀ h : t ≠ [], t.head h ≠ 0) :
    decodeBase58 (encodeBase58 (List.replicate k 0 ++ t)) =
      some (List.replicate k 0 ++ t) := by
  have h58 : (1 : Nat) < 58 := by norm_num
  have h256 : (1 : Nat) < 256 := by norm_num
  cases t with
  | nil =>
    have hb0 : bytesToNat (List.replicate k 0 ++ []) = 0 := by
      rw [bytesToNat_replicate_zero_append]; simp [Nat.ofDigits]
    have hcl : countLeading 0 (List.replicate k 0 ++ ([] : List Nat)) = k := by
      simpa using countLeading_replicate_append (0 : Nat) k []
    rw [encodeBase58, hb0, hcl]
    have hdig : digitsLE 58 0 = [] := rfl
    rw [hdig]
    simp only [List.reverse_nil, List.map_nil, List.append_nil]
    have h1 : List.replicate k '1' = (List.replicate k 0).map b58Char := by
      rw [List.map_replicate]; rfl
    rw [h1, decodeBase58, b58Vals_map]
    · simp only [Option.map_some', countLeading_replicate, List.reverse_replicate,
        ofDigitsLE_eq, ofDigits_replicate_zero]
      have : natToBytesBE 0 = [] := rfl
      rw [this, List.append_nil]
    · intro d hd
      rw [List.eq_of_mem_replicate hd]
      norm_num
  | cons x t' =>
    have hx : x ≠ 0 := by
      have := hhead (by simp)
      simpa using this
    set n : Nat := Nat.ofDigits 256 (x :: t').reverse with hn
    have hrevne : (x :: t').reverse ≠ [] := by simp
    have hlast : ∀ h : (x :: t').reverse ≠ [], ((x :: t').reverse).getLast h ≠ 0 := by
      intro h
      rw [List.getLast_reverse]
      simpa using hx
    have hdig256 : Nat.digits 256 n = (x :: t').reverse := by
      refine Nat.digits_ofDigits 256 h256 _ ?_ ?_
      · intro l hl
        exact ht l (List.mem_reverse.mp hl)
      · exact hlast
    have hne : n ≠ 0 := by
      rw [← Nat.digits_ne_nil_iff_ne_zero (b := 256), hdig256]
      exact hrevne
    have hb : bytesToNat (List.replicate k 0 ++ x :: t') = n :=
      bytesToNat_replicate_zero_append k (x :: t')
    have hcl : countLeading 0 (List.replicate k 0 ++ x :: t') = k := by
      rw [countLeading_replicate_append, countLeading_cons_ne 0 x t' hx]
      omega
    have hD : digitsLE 58 n = Nat.digits 58 n := digitsLE_eq 58 n h58
    rw [encodeBase58, hb, hcl, hD]
    have h1 : List.replicate k '1' ++ (Nat.digits 58 n).reverse.map b58Char =
        (List.replicate k 0 ++ (Nat.digits 58 n).reverse).map b58Char := by
      rw [List.map_append, List.map_replicate]; rfl
    rw [h1, decodeBase58, b58Vals_map]
    · have hDne : (Nat.digits 58 n).reverse ≠ [] := by
        simp [Nat.digits_ne_nil_iff_ne_zero, hne]
      obtain ⟨d, D', hDD⟩ := List.exists_cons_of_ne_nil hDne
      have hd0 : d ≠ 0 := by
        have h1 : ((Nat.digits 58 n).reverse).head? = some d := by rw [hDD]; rfl
        have h2 : ((Nat.digits 58 n).reverse).head? = (Nat.digits 58 n).getLast? :=
          List.head?_reverse _
        have h3 : (Nat.digits 58 n).getLast? =
            some ((Nat.digits 58 n).getLast (Nat.digits_ne_nil_iff_ne_zero.mpr hne)) :=
          List.getLast?_eq_getLast _ _
        have h4 := Nat.getLast_digit_ne_zero 58 hne
        rw [h2, h3] at h1
        intro hd
        apply h4
        rw [Option.some_inj.mp h1, hd]
      have hclds : countLeading 0 (List.replicate k 0 ++ (Nat.digits 58 n).reverse) = k := by
        rw [hDD, countLeading_replicate_append, countLeading_cons_ne 0 d D' hd0]
        omega
      have hofd : ofDigitsLE 58 (List.replicate k 0 ++ (Nat.digits 58 n).reverse).reverse
          = n := by
        rw [List.reverse_append, List.reverse_reverse, List.reverse_replicate,
          ofDigitsLE_eq, Nat.ofDigits_append, ofDigits_replicate_zero,
          Nat.ofDigits_digits]
        ring
      rw [Option.map_some', hclds, hofd]
      have hnb : natToBytesBE n = x :: t' := by
        rw [natToBytesBE, digitsLE_eq 256 n h256, hdig256, List.reverse_reverse]
      rw [hnb]
    · intro d hd
      rcases List.mem_append.mp hd with hd | hd
      · rw [List.eq_of_mem_replicate hd]; norm_num
      · exact Nat.digits_lt_base h58 (List.mem_reverse.mp hd)

/-- The base-58 round trip: decoding the encoding of any byte string
returns exactly that byte string. -/
theorem decodeBase58_encodeBase58 (bs : List Nat) (h : ∀ b ∈ bs, b < 256) :
    decodeBase58 (encodeBase58 bs) = some bs := by
  have hdec := countLeading_decomp bs
  have hh := countLeading_drop_head bs
  calc decodeBase58 (encodeBase58 bs)
      = decodeBase58 (encodeBase58 (List.replicate (countLeading 0 bs) 0 ++
          bs.drop (countLeading 0 bs))) := by rw [← hdec]
    _ = some (List.replicate (countLeading 0 bs) 0 ++ bs.drop (countLeading 0 bs)) := by
        refine decode_encode_core _ _ ?_ hh
        intro b hb
        exact h b (List.mem_of_mem_drop hb)
    _ = some bs := by rw [← hdec]

/-! ## Domain model: identifiers, account metadata, instructions -/

/-- `u64::to_le_bytes`-style fixed-width little-endian encoding. -/
def leBytes : Nat → Nat → List Nat
  | 0, _ => []
  | w + 1, n => n % 256 :: leBytes w (n / 256)

/-- Little-endian 8-byte amount encoding (`amount.to_le_bytes()`). -/
def le8 (n : Nat) : List Nat := leBytes 8 n

/-- `solana_sdk::instruction::AccountMeta`. -/
structure AccountMetaL where
  pubkey : List Nat
  is_signer : Bool
  is_writable : Bool
deriving DecidableEq

/-- `solana_sdk::instruction::Instruction`. -/
structure Instruction where
  program_id : List Nat
  accounts : List AccountMetaL
  data : List Nat
deriving DecidableEq

/-- `Pubkey::from_str`: reject texts longer than `MAX_BASE58_LEN = 44`,
base-58 decode (`Invalid` on bad characters), and require exactly 32
decoded bytes (`WrongSize`). -/
def parsePubkey (s : List Char) : Option (List Nat) :=
  if s.length > 44 then none
  else
    match decodeBase58 s with
    | none => none
    | some bs => if bs.length = 32 then some bs else none

/-- `spl_token::ID`, declared in the crate from its base-58 text. -/
def splTokenId : List Nat :=
  (decodeBase58 ("TokenkegQfeZyiNwAJbNbGKPFXCWuBvf9Ss623VQ5DA".toList)).getD []

/-- `solana_sdk::system_program::ID` (the all-zero identifier, declared
from 32 `'1'` characters of base-58 text). -/
def systemProgramId : List Nat :=
  (decodeBase58 (List.replicate 32 '1')).getD []

/-- `spl_token` `ProgramError` outcomes reachable from this service. -/
inductive ProgErr
  | incorrectProgramId
deriving DecidableEq

/-- `TokenInstruction::pack_pubkey_option`: tag byte `1` plus the key
for `Some`, tag byte `0` for `None`. -/
def packPubkeyOption : Option (List Nat) → List Nat
  | some pk => 1 :: pk
  | none => [0]

/-- `spl_token::instruction::initialize_mint2`: checks the program id,
packs `InitializeMint2` (discriminant 20, decimals, mint authority,
optional freeze authority) and references the mint as the single
writable non-signer account. -/
def initialize_mint2 (token_program_id mint_pubkey mint_authority_pubkey : List Nat)
    (freeze_authority_pubkey : Option (List Nat)) (decimals : Nat) :
    Except ProgErr Instruction :=
  if token_program_id ≠ splTokenId then Except.error ProgErr.incorrectProgramId
  else Except.ok
    { program_id := token_program_id
      accounts := [⟨mint_pubkey, false, true⟩]
      data := 20 :: decimals ::
        (mint_authority_pubkey ++ packPubkeyOption freeze_authority_pubkey) }

/-- `spl_token::instruction::mint_to`: packs `MintTo` (discriminant 7,
little-endian 8-byte amount); accounts are mint (writable), destination
(writable), owner (read-only, signer iff no multisig signers), then one
read-only signer entry per multisig signer. -/
def mint_to (token_program_id mint_pubkey account_pubkey owner_pubkey : List Nat)
    (signer_pubkeys : List (List Nat)) (amount : Nat) : Except ProgErr Instruction :=
  if token_program_id ≠ splTokenId then Except.error ProgErr.incorrectProgramId
  else Except.ok
    { program_id := token_program_id
      accounts := [⟨mint_pubkey, false, true⟩, ⟨account_pubkey, false, true⟩,
          ⟨owner_pubkey, signer_pubkeys.isEmpty, false⟩] ++
        signer_pubkeys.map (fun pk => ⟨pk, true, false⟩)
      data := 7 :: le8 amount }

/-- `spl_token::instruction::transfer`: packs `Transfer` (discriminant
3, little-endian 8-byte amount); accounts are source (writable),
destination (writable), authority (read-only, signer iff no multisig
signers), then one read-only signer entry per multisig signer. -/
def spl_token_transfer (token_program_id source_pubkey destination_pubkey
    authority_pubkey : List Nat) (signer_pubkeys : List (List Nat)) (amount : Nat) :
    Except ProgErr Instruction :=
  if token_program_id ≠ splTokenId then Except.error ProgErr.incorrectProgramId
  else Except.ok
    { program_id := token_program_id
      accounts := [⟨source_pubkey, false, true⟩, ⟨destination_pubkey, false, true⟩,
          ⟨authority_pubkey, signer_pubkeys.isEmpty, false⟩] ++
        signer_pubkeys.map (fun pk => ⟨pk, true, false⟩)
      data := 3 :: le8 amount }

/-- `solana_sdk::system_instruction::transfer`: from (signer, writable)
then to (writable); data is the bincode of
`SystemInstruction::Transfer` (4-byte little-endian variant index 2,
then the little-endian 8-byte amount). -/
def system_transfer (from_pubkey to_pubkey : List Nat) (lamports : Nat) : Instruction :=
  { program_id := systemProgramId
    accounts := [⟨from_pubkey, true, true⟩, ⟨to_pubkey, false, true⟩]
    data := leBytes 4 2 ++ le8 lamports }

/-! ## Keypair reconstruction (`Keypair::from_bytes`) -/

/-- The ed25519 primitives of `ed25519_dalek`, taken as parameters of
the embedding: `derivePub` is public-key derivation from a 32-byte
secret (`PublicKey::from(&secret)`, as compressed bytes), `validPoint`
is the decompression check of `PublicKey::from_bytes`, and `signMsg`
produces a signature from keypair bytes and a message.  Every claim
settled through this structure is decided by the length checks
surrounding these primitives, not by their values. -/
structure Ed25519 where
  derivePub : List Nat → List Nat
  validPoint : List Nat → Bool
  signMsg : List Nat → List Nat → List Nat

/-- `solana_sdk::signer::keypair::Keypair::from_bytes`: inputs shorter
than 64 bytes are rejected; the secret is the first 32 bytes, the
public half is everything from byte 32 on and must be exactly 32 bytes
(`PublicKey::from_bytes`) and a valid point, and must equal the public
key derived from the secret. -/
def keypairFromBytes (E : Ed25519) (bytes : List Nat) : Option (List Nat × List Nat) :=
  if bytes.length < 64 then none
  else if (bytes.drop 32).length ≠ 32 then none
  else if E.validPoint (bytes.drop 32) = false then none
  else if bytes.drop 32 = E.derivePub (bytes.take 32) then
    some (bytes.take 32, bytes.drop 32)
  else none

/-- A concrete instantiation of the ed25519 primitives, used only to
evaluate length-determined facts at concrete inputs. -/
def trivialEd25519 : Ed25519 :=
  { derivePub := fun _ => List.replicate 32 0
    validPoint := fun _ => true
    signMsg := fun _ _ => [] }

/-! ## HTTP handlers

Each handler is modelled after JSON decoding of the request body (the
`JsonRejection` branch is transport shell).  Request string fields are
`List Char`; numeric fields are `Nat` (`u64`/`u8` values).  An
`ApiError` constructor stands for each distinct error response body. -/

/-- The error bodies returned by the handlers. -/
inductive ApiError
  | missingFields
  | invalidSender
  | invalidRecipient
  | invalidMint
  | invalidSecretFormat
  | invalidKeypairBytes
  | amountZero
  | hello
deriving DecidableEq

/-- How the `instruction_data` field is put on the wire:
`WireData.raw` is the raw byte vector placed directly in the JSON
(serialized as an array of numbers), `WireData.b58` is a base-58
string. -/
inductive WireData
  | raw (bytes : List Nat)
  | b58 (text : List Char)
deriving DecidableEq

/-- `WireData.raw` shape predicate. -/
def WireData.isRaw : WireData → Prop
  | .raw _ => True
  | .b58 _ => False

/-- `WireData.b58` shape predicate. -/
def WireData.isB58 : WireData → Prop
  | .raw _ => False
  | .b58 _ => True

/-- Success payload of an instruction-building handler: the constructed
instruction together with the wire form of its `instruction_data`
field. -/
structure HandlerOk where
  ix : Instruction
  instruction_data : WireData
deriving DecidableEq

/-- Holds of an `Except` result when any successful payload's
`instruction_data` has the given shape. -/
def okWire (shape : WireData → Prop) : Except ApiError HandlerOk → Prop
  | .ok o => shape o.instruction_data
  | .error _ => True

/-- Request body of `POST /token/create`. -/
structure TokenDetails where
  mintAuthority : List Char
  mint : List Char
  decimals : Nat

/-- Request body of `POST /token/mint`. -/
structure TokenMint where
  mint : List Char
  destination : List Char
  authority : List Char
  amount : Nat

/-- Request body of `POST /send/sol` (`from` and `to` are Lean
keywords, so the fields are `fromAddr` and `toAddr`). -/
structure TransferSol where
  fromAddr : List Char
  toAddr : List Char
  lamports : Nat

/-- Request body of `POST /send/token`. -/
structure TransferToken where
  owner : List Char
  destination : List Char
  mint : List Char
  amount : Nat

/-- Request body of `POST /message/sign`; the message is kept as its
byte string (`message.as_bytes()`). -/
structure MessageSign where
  message : List Nat
  secret : List Char

/-- Handler `create_token` (`POST /token/create`): missing-fields check
(which also rejects `decimals == 0`), parse `mint` then
`mintAuthority` (both failing as "Invalid sender address"), then
`initialize_mint2` with the mint authority also passed as freeze
authority; a builder error returns the placeholder body "Hello".  The
raw `instr.data` vector is placed in the JSON response. -/
def create_token (r : TokenDetails) : Except ApiError HandlerOk :=
  if r.mintAuthority = [] ∨ r.mint = [] ∨ r.decimals = 0 then
    Except.error ApiError.missingFields
  else
    match parsePubkey r.mint with
    | none => Except.error ApiError.invalidSender
    | some mint =>
      match parsePubkey r.mintAuthority with
      | none => Except.error ApiError.invalidSender
      | some mint_authority =>
        match initialize_mint2 splTokenId mint mint_authority (some mint_authority)
            r.decimals with
        | .ok instr => Except.ok ⟨instr, WireData.raw instr.data⟩
        | .error _ => Except.error ApiError.hello

/-- Handler `token_mint` (`POST /token/mint`): the missing-fields check
also rejects `amount == 0`; then parse `mint`, `authority`,
`destination` (each failing as "Invalid sender address"), then
`mint_to` with the authority as the sole multisig signer.  The raw
`instr.data` vector is placed in the JSON response. -/
def token_mint (r : TokenMint) : Except ApiError HandlerOk :=
  if r.mint = [] ∨ r.destination = [] ∨ r.authority = [] ∨ r.amount = 0 then
    Except.error ApiError.missingFields
  else
    match parsePubkey r.mint with
    | none => Except.error ApiError.invalidSender
    | some mint_key =>
      match parsePubkey r.authority with
      | none => Except.error ApiError.invalidSender
      | some authority_pubkey =>
        match parsePubkey r.destination with
        | none => Except.error ApiError.invalidSender
        | some destination_pubkey =>
          match mint_to splTokenId mint_key destination_pubkey authority_pubkey
              [authority_pubkey] r.amount with
          | .ok instr => Except.ok ⟨instr, WireData.raw instr.data⟩
          | .error _ => Except.error ApiError.hello

/-- Handler `transfer_sol` (`POST /send/sol`): missing-fields check,
parse `from` ("Invalid sender address") and `to` ("Invalid recipient
address"), reject `lamports == 0` ("Amount must be greater than 0"),
then `system_instruction::transfer`.  The `instruction_data` is sent as
a base-58 string. -/
def transfer_sol (r : TransferSol) : Except ApiError HandlerOk :=
  if r.fromAddr = [] ∨ r.toAddr = [] then Except.error ApiError.missingFields
  else
    match parsePubkey r.fromAddr with
    | none => Except.error ApiError.invalidSender
    | some from_pubkey =>
      match parsePubkey r.toAddr with
      | none => Except.error ApiError.invalidRecipient
      | some to_pubkey =>
        if r.lamports = 0 then Except.error ApiError.amountZero
        else
          Except.ok ⟨system_transfer from_pubkey to_pubkey r.lamports,
            WireData.b58 (encodeBase58 (system_transfer from_pubkey to_pubkey
              r.lamports).data)⟩

/-- Handler `transfer_token` (`POST /send/token`): missing-fields
check, parse `owner` ("Invalid sender address"), `destination`
("Invalid recipient address"), `mint` ("Invalid mint address"); the
zero-amount rejection present in `transfer_sol` is commented out here,
so the request proceeds straight to `spl_token::instruction::transfer`
with the owner as both source and authority and no multisig signers.
The `instruction_data` is sent as a base-58 string. -/
def transfer_token (r : TransferToken) : Except ApiError HandlerOk :=
  if r.owner = [] ∨ r.destination = [] ∨ r.mint = [] then
    Except.error ApiError.missingFields
  else
    match parsePubkey r.owner with
    | none => Except.error ApiError.invalidSender
    | some from_pubkey =>
      match parsePubkey r.destination with
      | none => Except.error ApiError.invalidRecipient
      | some to_pubkey =>
        match parsePubkey r.mint with
        | none => Except.error ApiError.invalidMint
        | some _mint_pubkey =>
          match spl_token_transfer splTokenId from_pubkey to_pubkey from_pubkey []
              r.amount with
          | .ok ix => Except.ok ⟨ix, WireData.b58 (encodeBase58 ix.data)⟩
          | .error _ => Except.error ApiError.amountZero

/-- Handler `message_sign` (`POST /message/sign`) up to its result:
missing-fields check, base-58 decode of the secret ("Invalid secret key
format"), `Keypair::from_bytes` ("Invalid keypair bytes"), then signing
with the reconstructed keypair. -/
def message_sign (E : Ed25519) (r : MessageSign) :
    Except ApiError (List Nat × List Nat) :=
  if r.message = [] ∨ r.secret = [] then Except.error ApiError.missingFields
  else
    match decodeBase58 r.secret with
    | none => Except.error ApiError.invalidSecretFormat
    | some secret_bytes =>
      match keypairFromBytes E secret_bytes with
      | none => Except.error ApiError.invalidKeypairBytes
      | some kp => Except.ok (E.signMsg (kp.1 ++ kp.2) r.message, kp.2)

/-- A string that parses as an identifier is non-empty (the empty text
decodes to zero bytes, which fails the 32-byte length check). -/
theorem parsePubkey_some_ne_nil {s : List Char} {pk : List Nat}
    (h : parsePubkey s = some pk) : s ≠ [] := by
  intro hs
  subst hs
  have hnone : parsePubkey ([] : List Char) = none := rfl
  rw [hnone] at h
  exact Option.noConfusion h

/-- A string whose parse is `isSome` is non-empty. -/
theorem parsePubkey_isSome_ne_nil {s : List Char}
    (h : (parsePubkey s).isSome) : s ≠ [] := by
  obtain ⟨pk, hpk⟩ := Option.isSome_iff_exists.mp h
  exact parsePubkey_some_ne_nil hpk

deriving instance DecidableEq for Except

/-! ## Handler reduction lemmas -/

/-- `transfer_token` on parseable fields: the spl transfer instruction
(source writable, destination writable, owner again as read-only
signer; data `3` plus the little-endian amount), with no zero-amount
rejection. -/
theorem transfer_token_ok (r : TransferToken) (po pd pm : List Nat)
    (hpo : parsePubkey r.owner = some po) (hpd : parsePubkey r.destination = some pd)
    (hpm : parsePubkey r.mint = some pm) :
    transfer_token r = Except.ok
      ⟨{ program_id := splTokenId
         accounts := [⟨po, false, true⟩, ⟨pd, false, true⟩, ⟨po, true, false⟩]
         data := 3 :: le8 r.amount },
       WireData.b58 (encodeBase58 (3 :: le8 r.amount))⟩ := by
  have h1 := parsePubkey_some_ne_nil hpo
  have h2 := parsePubkey_some_ne_nil hpd
  have h3 := parsePubkey_some_ne_nil hpm
  simp [transfer_token, h1, h2, h3, hpo, hpd, hpm, spl_token_transfer]

/-- `create_token` on parseable fields with nonzero decimals: the
`initialize_mint2` instruction with the mint authority also as freeze
authority. -/
theorem create_token_ok (r : TokenDetails) (pm pa : List Nat)
    (hm : parsePubkey r.mint = some pm) (ha : parsePubkey r.mintAuthority = some pa)
    (hd : r.decimals ≠ 0) :
    create_token r = Except.ok
      ⟨{ program_id := splTokenId
         accounts := [⟨pm, false, true⟩]
         data := 20 :: r.decimals :: (pa ++ 1 :: pa) },
       WireData.raw (20 :: r.decimals :: (pa ++ 1 :: pa))⟩ := by
  have h1 := parsePubkey_some_ne_nil hm
  have h2 := parsePubkey_some_ne_nil ha
  simp [create_token, h1, h2, hd, hm, ha, initialize_mint2, packPubkeyOption]

/-- `transfer_sol` on parseable fields with nonzero lamports. -/
theorem transfer_sol_ok (r : TransferSol) (pf pt : List Nat)
    (hf : parsePubkey r.fromAddr = some pf) (ht : parsePubkey r.toAddr = some pt)
    (hl : r.lamports ≠ 0) :
    transfer_sol r = Except.ok
      ⟨system_transfer pf pt r.lamports,
       WireData.b58 (encodeBase58 (system_transfer pf pt r.lamports).data)⟩ := by
  have h1 := parsePubkey_some_ne_nil hf
  have h2 := parsePubkey_some_ne_nil ht
  simp [transfer_sol, h1, h2, hf, ht, hl]

/-- `transfer_sol` on parseable fields rejects zero lamports. -/
theorem transfer_sol_zero (r : TransferSol) (pf pt : List Nat)
    (hf : parsePubkey r.fromAddr = some pf) (ht : parsePubkey r.toAddr = some pt)
    (hl : r.lamports = 0) :
    transfer_sol r = Except.error ApiError.amountZero := by
  have h1 := parsePubkey_some_ne_nil hf
  have h2 := parsePubkey_some_ne_nil ht
  simp [transfer_sol, h1, h2, hf, ht, hl]

/-! ## Claims -/

/-- C1 (counterexample): a 32-byte input to keypair reconstruction
fails — `Keypair::from_bytes` rejects everything shorter than 64 bytes
before any key material is inspected — refuting the claim that 32-byte
private-only inputs succeed with the public half re-derived. -/
theorem C1_counterexample :
    keypairFromBytes trivialEd25519 (List.replicate 32 1) = none := by decide

/-- C1 (amended): keypair reconstruction succeeds exactly for 64-byte
inputs whose public half is a valid point equal to the public key
derived from the private half; every other length — including 32 —
fails with the invalid-key error. -/
theorem C1_keypair_length (E : Ed25519) (bytes : List Nat) :
    (∃ kp, keypairFromBytes E bytes = some kp) ↔
      bytes.length = 64 ∧ E.validPoint (bytes.drop 32) = true ∧
        bytes.drop 32 = E.derivePub (bytes.take 32) := by
  unfold keypairFromBytes
  split_ifs with h1 h2 h3 h4
  · constructor
    · rintro ⟨kp, hkp⟩
      exact hkp.elim
    · rintro ⟨h, -, -⟩
      exact absurd h (by omega)
  · rw [List.length_drop] at h2
    constructor
    · rintro ⟨kp, hkp⟩
      exact hkp.elim
    · rintro ⟨h, -, -⟩
      exact absurd h (by omega)
  · constructor
    · rintro ⟨kp, hkp⟩
      exact hkp.elim
    · rintro ⟨-, hv, -⟩
      rw [hv] at h3
      exact Bool.noConfusion h3
  · rw [List.length_drop] at h2
    constructor
    · intro
      refine ⟨by omega, ?_, h4⟩
      cases hvp : E.validPoint (bytes.drop 32)
      · exact absurd hvp h3
      · rfl
    · intro
      exact ⟨_, rfl⟩
  · constructor
    · rintro ⟨kp, hkp⟩
      exact hkp.elim
    · rintro ⟨-, -, heq⟩
      exact absurd heq h4

/-- C2: with parseable owner/destination/mint fields, a token-transfer
request with amount 0 succeeds (the zero-amount check is commented
out), while a value-transfer request with amount 0 and parseable
identifiers is rejected with the amount error. -/
theorem C2_token_transfer_zero_allowed (r : TransferToken) (s : TransferSol)
    (po pd pm pf pt : List Nat)
    (hpo : parsePubkey r.owner = some po) (hpd : parsePubkey r.destination = some pd)
    (hpm : parsePubkey r.mint = some pm) (hra : r.amount = 0)
    (hpf : parsePubkey s.fromAddr = some pf) (hpt : parsePubkey s.toAddr = some pt)
    (hsl : s.lamports = 0) :
    (∃ o, transfer_token r = Except.ok o) ∧
      transfer_sol s = Except.error ApiError.amountZero :=
  ⟨⟨_, transfer_token_ok r po pd pm hpo hpd hpm⟩,
   transfer_sol_zero s pf pt hpf hpt hsl⟩

/-- C2 (witness): concrete zero-amount requests. -/
theorem C2_witness :
    (∃ o, transfer_token (TransferToken.mk (List.replicate 32 '1')
        (List.replicate 31 '1' ++ ['2']) (List.replicate 32 '1') 0) = Except.ok o) ∧
      transfer_sol (TransferSol.mk (List.replicate 32 '1')
        (List.replicate 31 '1' ++ ['2']) 0) = Except.error ApiError.amountZero :=
  C2_token_transfer_zero_allowed _ _ (List.replicate 32 0) (List.replicate 31 0 ++ [1])
    (List.replicate 32 0) (List.replicate 32 0) (List.replicate 31 0 ++ [1])
    (by decide) (by decide) (by decide) rfl (by decide) (by decide) rfl

/-- C3 (counterexample): a concrete valid token-transfer request whose
instruction carries THREE account entries — source (writable),
destination (writable), and the owner again as read-only signer — not
the two entries the claim states. -/
theorem C3_counterexample :
    (transfer_token (TransferToken.mk (List.replicate 32 '1')
        (List.replicate 31 '1' ++ ['2']) (List.replicate 32 '1') 5)).map
      (fun o => o.ix.accounts) =
    Except.ok [⟨List.replicate 32 0, false, true⟩,
      ⟨List.replicate 31 0 ++ [1], false, true⟩,
      ⟨List.replicate 32 0, true, false⟩] := by decide

/-- C3 (amended): for every token-transfer request with parseable
fields the instruction's account list is source (writable, non-signer),
destination (writable, non-signer), then the owner as read-only signer;
the payload is discriminant `3` followed by the little-endian 8-byte
amount. -/
theorem C3_token_transfer_instruction (r : TransferToken) (po pd pm : List Nat)
    (hpo : parsePubkey r.owner = some po) (hpd : parsePubkey r.destination = some pd)
    (hpm : parsePubkey r.mint = some pm) :
    (transfer_token r).map (fun o => (o.ix.accounts, o.ix.data)) =
      Except.ok ([⟨po, false, true⟩, ⟨pd, false, true⟩, ⟨po, true, false⟩],
        3 :: le8 r.amount) := by
  rw [transfer_token_ok r po pd pm hpo hpd hpm]; rfl

/-- C3 (witness): the amended account list and payload at a concrete
request. -/
theorem C3_witness :
    (transfer_token (TransferToken.mk (List.replicate 32 '1')
        (List.replicate 31 '1' ++ ['2']) (List.replicate 32 '1') 7)).map
      (fun o => (o.ix.accounts, o.ix.data)) =
    Except.ok ([⟨List.replicate 32 0, false, true⟩,
      ⟨List.replicate 31 0 ++ [1], false, true⟩,
      ⟨List.replicate 32 0, true, false⟩], 3 :: le8 7) :=
  C3_token_transfer_instruction _ (List.replicate 32 0) (List.replicate 31 0 ++ [1])
    (List.replicate 32 0) (by decide) (by decide) (by decide)

/-- C4: value transfer with parseable identifiers rejects amount 0 with
the invalid-amount error, and for any amount ≥ 1 returns exactly two
account entries: from (signer, writable) then to (writable only). -/
theorem C4_transfer_sol_behavior (r : TransferSol) (pf pt : List Nat)
    (hf : parsePubkey r.fromAddr = some pf) (ht : parsePubkey r.toAddr = some pt) :
    (r.lamports = 0 → transfer_sol r = Except.error ApiError.amountZero) ∧
      (1 ≤ r.lamports →
        (transfer_sol r).map (fun o => o.ix.accounts) =
          Except.ok [⟨pf, true, true⟩, ⟨pt, false, true⟩]) :=
  ⟨fun h0 => transfer_sol_zero r pf pt hf ht h0,
   fun h1 => by rw [transfer_sol_ok r pf pt hf ht (by omega)]; rfl⟩

/-- C4 (witness): the two-entry account list at a concrete amount-1
request. -/
theorem C4_witness :
    (transfer_sol (TransferSol.mk (List.replicate 32 '1')
        (List.replicate 31 '1' ++ ['2']) 1)).map (fun o => o.ix.accounts) =
      Except.ok [⟨List.replicate 32 0, true, true⟩,
        ⟨List.replicate 31 0 ++ [1], false, true⟩] :=
  (C4_transfer_sol_behavior _ (List.replicate 32 0) (List.replicate 31 0 ++ [1])
    (by decide) (by decide)).2 (by decide)

/-- C5 (counterexample): a token-mint request whose mint text is not
parseable AND whose amount is zero is answered with the missing-fields
error, not an identifier error — the zero-amount rule fires inside the
missing-fields check, before any identifier parsing. -/
theorem C5_counterexample :
    parsePubkey ['!', '!'] = none ∧
      token_mint (TokenMint.mk ['!', '!'] (List.replicate 32 '1')
        (List.replicate 32 '1') 0) = Except.error ApiError.missingFields := by decide

/-- C5 (amended): validation order is not uniform across operations.
In `token_mint` the zero-amount rule is folded into check (a), so a
non-empty request with amount 0 gets the missing-fields error even when
an identifier is unparseable; in `transfer_sol` identifiers are parsed
before the amount rule, so an unparseable sender yields the identifier
error even when the amount is also zero. -/
theorem C5_validation_order (r : TokenMint) (s : TransferSol)
    (h1 : r.mint ≠ []) (h2 : r.destination ≠ []) (h3 : r.authority ≠ [])
    (h4 : r.amount = 0)
    (h5 : s.fromAddr ≠ []) (h6 : s.toAddr ≠ []) (h7 : parsePubkey s.fromAddr = none) :
    token_mint r = Except.error ApiError.missingFields ∧
      transfer_sol s = Except.error ApiError.invalidSender := by
  constructor
  · simp [token_mint, h4]
  · simp [transfer_sol, h5, h6, h7]

/-- C5 (witness): the amended behavior at concrete requests (the
value-transfer one also has amount 0). -/
theorem C5_witness :
    token_mint (TokenMint.mk (List.replicate 32 '1') (List.replicate 32 '1')
        (List.replicate 32 '1') 0) = Except.error ApiError.missingFields ∧
      transfer_sol (TransferSol.mk (['!', '!']) (List.replicate 32 '1') 0) =
        Except.error ApiError.invalidSender :=
  C5_validation_order _ _ (by decide) (by decide) (by decide) rfl
    (by decide) (by decide) (by decide)

/-- C6: mint-init rejects decimals 0 with the missing-fields error, and
for decimals 9 with parseable mint and mint-authority it succeeds with
a single writable non-signer account entry equal to the supplied
mint. -/
theorem C6_create_token_decimals (r : TokenDetails) (pm pa : List Nat)
    (hm : parsePubkey r.mint = some pm) (ha : parsePubkey r.mintAuthority = some pa) :
    (r.decimals = 0 → create_token r = Except.error ApiError.missingFields) ∧
      (r.decimals = 9 →
        (create_token r).map (fun o => o.ix.accounts) =
          Except.ok [⟨pm, false, true⟩]) := by
  constructor
  · intro h0
    simp [create_token, h0]
  · intro h9
    rw [create_token_ok r pm pa hm ha (by omega)]
    rfl

/-- C6 (witness): decimals 9 at a concrete request. -/
theorem C6_witness :
    (create_token (TokenDetails.mk (List.replicate 31 '1' ++ ['2'])
        (List.replicate 32 '1') 9)).map (fun o => o.ix.accounts) =
      Except.ok [⟨List.replicate 32 0, false, true⟩] :=
  (C6_create_token_decimals _ (List.replicate 32 0) (List.replicate 31 0 ++ [1])
    (by decide) (by decide)).2 rfl

/-- C8: decoding the base-58 encoding of any byte sequence returns
exactly that byte sequence. -/
theorem C8_base58_roundtrip (bs : List Nat) (h : ∀ b ∈ bs, b < 256) :
    decodeBase58 (encodeBase58 bs) = some bs :=
  decodeBase58_encodeBase58 bs h

/-- C8 (witness): the round trip at a concrete byte sequence with
leading zeros. -/
theorem C8_witness :
    decodeBase58 (encodeBase58 [0, 0, 255, 1, 58]) = some [0, 0, 255, 1, 58] :=
  C8_base58_roundtrip [0, 0, 255, 1, 58] (by decide)

/-- C9: for every valid mint-init request the packed instruction data
is discriminant 20, the decimals byte, the mint authority, and then the
freeze-authority option tagged present (`1`) and equal to the supplied
mint authority — the freeze authority is never omitted. -/
theorem C9_freeze_authority_always_set (r : TokenDetails) (pm pa : List Nat)
    (hm : parsePubkey r.mint = some pm) (ha : parsePubkey r.mintAuthority = some pa)
    (hd : r.decimals ≠ 0) :
    (create_token r).map (fun o => o.ix.data) =
      Except.ok (20 :: r.decimals :: (pa ++ packPubkeyOption (some pa))) := by
  rw [create_token_ok r pm pa hm ha hd]
  rfl

/-- C9 (witness): the packed data at a concrete request. -/
theorem C9_witness :
    (create_token (TokenDetails.mk (List.replicate 31 '1' ++ ['2'])
        (List.replicate 32 '1') 6)).map (fun o => o.ix.data) =
      Except.ok (20 :: 6 :: ((List.replicate 31 0 ++ [1]) ++
        packPubkeyOption (some (List.replicate 31 0 ++ [1])))) :=
  C9_freeze_authority_always_set _ (List.replicate 32 0) (List.replicate 31 0 ++ [1])
    (by decide) (by decide) (by decide)

/-- C10: every success of `create_token` and `token_mint` carries its
`instruction_data` as the raw byte vector, while every success of
`transfer_sol` and `transfer_token` carries it as a base-58 string —
the two endpoint groups use different wire encodings. -/
theorem C10_wire_encoding :
    (∀ r : TokenDetails, okWire WireData.isRaw (create_token r)) ∧
      (∀ r : TokenMint, okWire WireData.isRaw (token_mint r)) ∧
      (∀ r : TransferSol, okWire WireData.isB58 (transfer_sol r)) ∧
      (∀ r : TransferToken, okWire WireData.isB58 (transfer_token r)) := by
  refine ⟨fun r => ?_, fun r => ?_, fun r => ?_, fun r => ?_⟩
  · unfold create_token
    repeat' split
    all_goals simp [okWire, WireData.isRaw]
  · unfold token_mint
    repeat' split
    all_goals simp [okWire, WireData.isRaw]
  · unfold transfer_sol
    repeat' split
    all_goals simp [okWire, WireData.isB58]
  · unfold transfer_token
    repeat' split
    all_goals simp [okWire, WireData.isB58]
